import Mathlib

/-!
Shallow embedding of `fladz/bqwrapper` (src/core.go, src/types.go) and
verification of the specification's claims about it.

Modelling conventions:
* Go strings are Lean `String`s; where the source manipulates raw bytes
  (the CSV delimiter `delim[0]`), the delimiter is modelled as its UTF-8
  byte list (`List Nat`).
* BigQuery cell values (`cell.V : interface{}`) are `Option String`:
  `none` is JSON null, `some s` the string payload the service returns.
* `strconv.ParseInt(s, 10, 64)`, `ParseFloat(s, 64)` and `ParseBool(s)`
  are modelled as `Option`-returning parsers.  `goParseFloat` abstracts
  IEEE-754 rounding to exact rationals over the decimal syntax; Go's
  hex-float and inf/nan spellings are outside the claims and omitted.
* File-system effects of `dumpJSON`/`dumpCSV` are modelled as explicit
  operation traces with injected failure flags.
* Network interactions (query pages, job-status responses, dataset
  listing pages) are modelled as the finite sequences of responses the
  service returns; an unbounded Go loop that runs off the end of the
  sequence is `Option.none` (still blocked / non-terminating).
-/

namespace Bqwrapper

/-- The decimal components a successful `strconv.ParseFloat` parse
denotes: sign, integer part, fractional digits (with their count), and
exponent.  IEEE-754 rounding is abstracted away: the components are
kept exactly; `GoFloat.toRat` below gives the denoted number. -/
structure GoFloat where
  neg : Bool
  intPart : Nat
  fracPart : Nat
  fracLen : Nat
  exp : Int
deriving DecidableEq, Repr

/-- A decoded record value (`interface{}` values stored by `toRows`):
string, int64, float64, bool, or nil. -/
inductive Value where
  | null : Value
  | str (s : String) : Value
  | int (i : Int) : Value
  | float (f : GoFloat) : Value
  | bool (b : Bool) : Value
deriving DecidableEq, Repr

/-- A record produced by `toRows`: a Go `map[string]interface{}`,
modelled as an association list with no duplicate keys (inserts
overwrite). -/
abbrev Record := List (String × Value)

/-- Digits of a nonempty all-digit character list, as a number. -/
def natOfDigits (cs : List Char) : Nat :=
  cs.foldl (fun n c => n * 10 + (c.toNat - 48)) 0

/-- Nonempty and all base-10 digits. -/
def isDigits (cs : List Char) : Bool :=
  !cs.isEmpty && cs.all Char.isDigit

/-- Model of `strconv.ParseInt(s, 10, 64)`: optional sign, nonempty digit string,
result range-checked against int64. -/
def goParseInt64 (s : String) : Option Int :=
  let cs := s.toList
  let signDigits : Bool × List Char :=
    match cs with
    | '-' :: rest => (true, rest)
    | '+' :: rest => (false, rest)
    | _ => (false, cs)
  if isDigits signDigits.2 then
    let v : Int := if signDigits.1 then -(natOfDigits signDigits.2 : Int)
                   else (natOfDigits signDigits.2 : Int)
    if -(2 ^ 63) ≤ v ∧ v ≤ 2 ^ 63 - 1 then some v else none
  else none

/-- Model of `strconv.ParseBool(s)`: the exact strings Go accepts. -/
def goParseBool (s : String) : Option Bool :=
  if s = "1" ∨ s = "t" ∨ s = "T" ∨ s = "TRUE" ∨ s = "true" ∨ s = "True" then
    some true
  else if s = "0" ∨ s = "f" ∨ s = "F" ∨ s = "FALSE" ∨ s = "false" ∨ s = "False" then
    some false
  else none

/-- Model of `strconv.ParseFloat(s, 64)` over the decimal syntax
`[sign] digits [. digits] [(e|E) [sign] digits]` (at least one mantissa
digit required).  Go's hex-float and inf/nan spellings are outside the
claims and omitted. -/
def goParseFloat (s : String) : Option GoFloat :=
  let cs := s.toList
  let signRest : Bool × List Char :=
    match cs with
    | '-' :: rest => (true, rest)
    | '+' :: rest => (false, rest)
    | _ => (false, cs)
  let mantExp := signRest.2.span (fun c => c ≠ 'e' && c ≠ 'E')
  let expVal : Option Int :=
    match mantExp.2 with
    | [] => some 0
    | _ :: ex =>
      let esignRest : Bool × List Char :=
        match ex with
        | '-' :: r => (true, r)
        | '+' :: r => (false, r)
        | _ => (false, ex)
      if isDigits esignRest.2 then
        some (if esignRest.1 then -(natOfDigits esignRest.2 : Int)
              else (natOfDigits esignRest.2 : Int))
      else none
  let mantVal : Option (Nat × Nat × Nat) :=
    match mantExp.1.splitOn '.' with
    | [ip] => if isDigits ip then some (natOfDigits ip, 0, 0) else none
    | [ip, fp] =>
      if (isDigits ip || isDigits fp) && ip.all Char.isDigit && fp.all Char.isDigit then
        some (natOfDigits ip, natOfDigits fp, fp.length)
      else none
    | _ => none
  match mantVal, expVal with
  | some m, some e => some ⟨signRest.1, m.1, m.2.1, m.2.2, e⟩
  | _, _ => none

/-- The exact rational a parsed float denotes. -/
def GoFloat.toRat (f : GoFloat) : Rat :=
  (if f.neg then -1 else 1)
    * ((f.intPart : Rat) + (f.fracPart : Rat) / (10 : Rat) ^ f.fracLen)
    * (10 : Rat) ^ f.exp

/-- Model of `bigquery.TableFieldSchema`: the fields of it that `walkFields` and
`toRows` read (name, type, nested fields). -/
inductive TableFieldSchema where
  | mk (name : String) (type : String) (fields : List TableFieldSchema)

def TableFieldSchema.name : TableFieldSchema → String
  | .mk n _ _ => n

def TableFieldSchema.type : TableFieldSchema → String
  | .mk _ t _ => t

def TableFieldSchema.fields : TableFieldSchema → List TableFieldSchema
  | .mk _ _ fs => fs

/-- Embedding of `walkFields` (core.go:537-552): walk the schema recursively; for a
RECORD it recurses into the first nested field, passing that field's own
name as the new prefix, and returns on the first iteration; a RECORD
with no nested fields yields `("", "")`. -/
def walkFields (pre : String) (schema : TableFieldSchema) : String × String :=
  match schema with
  | .mk n t fs =>
    if t ≠ "RECORD" then
      if pre = "" then (n, t) else (pre ++ "." ++ n, t)
    else
      match fs with
      | [] => ("", "")
      | f :: _ => walkFields f.name f

/-- Internal field type definition (types.go:33-36). -/
structure fieldType where
  name : String
  ftype : String
deriving DecidableEq, Repr

/-- The flattened name/type list `toRows` derives from the response
schema (core.go:479-484). -/
def toRowsNames (fields : List TableFieldSchema) : List fieldType :=
  fields.map (fun f => ⟨(walkFields "" f).1, (walkFields "" f).2⟩)

/-- The decoding-error message of core.go:512,517,522 (the trailing
strconv error text is abstracted away). -/
def invalidMsg (name raw : String) : String :=
  "Invalid " ++ name ++ " value (" ++ raw ++ ")"

/-- The unsupported-type error message of core.go:526. -/
def unsupportedMsg (ftype name : String) : String :=
  "Unsupported field type " ++ ftype ++ " on " ++ name

/-- Decode one cell against its positional field type
(core.go:498-527): null passes through as null; otherwise dispatch on
the declared type. -/
def decodeCell (ft : fieldType) (cell : Option String) : Except String Value :=
  match cell with
  | none => .ok .null
  | some s =>
    if ft.ftype = "STRING" then .ok (.str s)
    else if ft.ftype = "INTEGER" ∨ ft.ftype = "TIMESTAMP" then
      match goParseInt64 s with
      | some i => .ok (.int i)
      | none => .error (invalidMsg ft.name s)
    else if ft.ftype = "FLOAT" then
      match goParseFloat s with
      | some f => .ok (.float f)
      | none => .error (invalidMsg ft.name s)
    else if ft.ftype = "BOOLEAN" then
      match goParseBool s with
      | some b => .ok (.bool b)
      | none => .error (invalidMsg ft.name s)
    else .error (unsupportedMsg ft.ftype ft.name)

/-- Go map assignment `result[k] = v`: overwrite an existing key,
otherwise add the binding. -/
def mapInsert (m : Record) (k : String) (v : Value) : Record :=
  if m.any (fun p => p.1 = k) then
    m.map (fun p => if p.1 = k then (k, v) else p)
  else m ++ [(k, v)]

/-- Decode the cells of one row positionally (core.go:497-528).  The Go
loop indexes `names[i]` for the i-th cell; a row longer than the name
list is an index-out-of-range panic, modelled as an error. -/
def decodeRowAux (acc : Record) :
    List fieldType → List (Option String) → Except String Record
  | _, [] => .ok acc
  | [], _ :: _ => .error "index out of range"
  | ft :: fts, c :: cs =>
    match decodeCell ft c with
    | .error e => .error e
    | .ok v => decodeRowAux (mapInsert acc ft.name v) fts cs

/-- The row loop of `toRows` (core.go:496-530): decode each row in
order, returning the first error, otherwise collecting the records. -/
def toRowsLoop (names : List fieldType) :
    List (List (Option String)) → Except String (List Record)
  | [] => .ok []
  | row :: rest =>
    match decodeRowAux [] names row with
    | .error e => .error e
    | .ok r =>
      match toRowsLoop names rest with
      | .error e => .error e
      | .ok rs => .ok (r :: rs)

/-- Embedding of `toRows` (core.go:477-533): derive the flattened field-type list
once, then decode every row, stopping at the first error. -/
def toRows (fields : List TableFieldSchema) (rows : List (List (Option String))) :
    Except String (List Record) :=
  toRowsLoop (toRowsNames fields) rows

/-- One response of `Jobs.GetQueryResults` as the pagination loop reads
it: the number of returned errors, the rows, and the next page token. -/
structure QueryPage where
  errs : Nat
  rows : List (List (Option String))
  pageToken : String

/-- The row-accumulation loop of `Dump` (core.go:267-289):
`for int(total) != retrieved`, request the next page with the current
page token and the running offset as start index, fail on page errors,
then append the page's rows, advance `retrieved` and take the returned
page token.  `fetch token startIndex` is the service's response to that
request; `fuel` bounds how many iterations are examined — `none` means
the loop is still running after `fuel` page requests. -/
def getAllRows (fetch : String → Nat → QueryPage) (total : Nat) :
    Nat → Nat → String → List (List (Option String)) →
      Option (Except String (List (List (Option String))))
  | 0, retrieved, _, rows =>
    if retrieved = total then some (.ok rows) else none
  | fuel + 1, retrieved, token, rows =>
    if retrieved = total then some (.ok rows)
    else
      let p := fetch token retrieved
      if p.errs ≠ 0 then
        some (.error (toString p.errs ++ " errors returned"))
      else
        getAllRows fetch total fuel (retrieved + p.rows.length)
          p.pageToken (rows ++ p.rows)

/-- A job-status response as `jobDone` reads it (`res.Status`). -/
structure JobStatus where
  errs : List String
  state : String

/-- Embedding of `jobDone` (core.go:308-331), given the status the service returned:
a non-empty error list fails first; then PENDING/RUNNING continue,
DONE succeeds, anything else is an unknown-status error. -/
def jobDone (st : JobStatus) : Except String Bool :=
  if st.errs.length ≠ 0 then
    .error (toString st.errs.length ++ " errors returned")
  else if st.state = "PENDING" ∨ st.state = "RUNNING" then .ok false
  else if st.state = "DONE" then .ok true
  else .error ("Unknown job status returned - " ++ st.state)

/-- The ticker period of the `Load` polling loop (core.go:162,
`time.NewTicker(3 * time.Second)`), in seconds. -/
def pollIntervalSeconds : Nat := 3

/-- The polling loop of `Load` (core.go:165-175) over the sequence of
status responses the service returns, one per tick: return the first
error or DONE; `none` means every response so far kept it polling. -/
def pollLoop : List JobStatus → Option (Except String Unit)
  | [] => none
  | st :: rest =>
    match jobDone st with
    | .error e => some (.error e)
    | .ok true => some (.ok ())
    | .ok false => pollLoop rest

/-- One page of a `Datasets.List` response: the dataset ids it carries
and its next page token. -/
structure DatasetPage where
  datasets : List String
  nextToken : String

/-- The lookup of `datasetCreateIfNotExists` (core.go:337-364): scan the
first page, then keep fetching pages while the token is non-empty. -/
def findDataset : List DatasetPage → String → Bool
  | [], _ => false
  | p :: ps, id =>
    if id ∈ p.datasets then true
    else if p.nextToken = "" then false
    else findDataset ps id

/-- Embedding of `datasetCreateIfNotExists` (core.go:335-375), reduced to its one
observable decision: whether the `Datasets.Insert` creation call is
issued.  It is issued exactly when the listing scan does not find the
dataset id. -/
def datasetCreateIfNotExists (pages : List DatasetPage) (id : String) : Bool :=
  !(findDataset pages id)

/-- Every page before the last carries a non-empty next token, so the
token-following loop reaches every page of the listing. -/
def chainedPages : List DatasetPage → Prop
  | [] => True
  | p :: ps => (ps = [] ∨ p.nextToken ≠ "") ∧ chainedPages ps

/-- All dataset ids of a listing, across its pages. -/
def allDatasets (pages : List DatasetPage) : List String :=
  (pages.map DatasetPage.datasets).flatten

/-- UTF-8 bytes of one character. -/
def charUTF8 (c : Char) : List Nat :=
  let n := c.toNat
  if n < 0x80 then [n]
  else if n < 0x800 then [0xC0 + n / 64, 0x80 + n % 64]
  else if n < 0x10000 then [0xE0 + n / 4096, 0x80 + (n / 64) % 64, 0x80 + n % 64]
  else [0xF0 + n / 262144, 0x80 + (n / 4096) % 64, 0x80 + (n / 64) % 64, 0x80 + n % 64]

/-- A Go string as its byte slice (UTF-8), for the code that indexes
bytes (`delim[0]`). -/
def goBytes (s : String) : List Nat :=
  s.data.flatMap charUTF8

/-- The bytes of the delimiter alias word `"tab"`. -/
def tabBytes : List Nat := [116, 97, 98]

/-- The CSV-delimiter defaulting in `Dump` (core.go:202-205): an empty
delimiter becomes `","` before `dumpCSV` is called. -/
def dumpDelimDefault (d : List Nat) : List Nat :=
  if d = [] then [44] else d

/-- The `csv.Writer` comma selection in `dumpCSV` (core.go:461-470):
the writer starts at `','` (44); a non-empty delimiter equal to `"tab"`
selects `'\t'` (9), any other non-empty delimiter selects the rune of
its first byte, `rune(delim[0])`. -/
def csvComma (delim : List Nat) : Nat :=
  match delim with
  | [] => 44
  | b :: _ => if delim = tabBytes then 9 else b

/-- Model of `fmt.Sprintf("%v", val)` on the values `toRows` stores.  Go renders
a nil interface as `"<nil>"`; float formatting (`%v` = `'g'`) is
abstracted to a rendering of the parsed decimal components. -/
def goFormat : Value → String
  | .null => "<nil>"
  | .str s => s
  | .int i => toString i
  | .float f =>
    (if f.neg then "-" else "") ++ toString f.intPart ++ "."
      ++ toString f.fracPart ++ "e" ++ toString f.exp
  | .bool b => if b then "true" else "false"

/-- Go map lookup `rows[k]` on a record. -/
def recordLookup (r : Record) (k : String) : Option Value :=
  (r.find? (fun p => p.1 = k)).map Prod.snd

/-- The keys of a record, in insertion order. -/
def recordKeys (r : Record) : List String :=
  r.map Prod.fst

/-- Lexicographic comparison of character lists by code point.  For
valid UTF-8, byte-wise and code-point-wise lexicographic order agree,
so this is Go's byte-wise string order. -/
def charListLe : List Char → List Char → Bool
  | [], _ => true
  | _ :: _, [] => false
  | a :: as, b :: bs =>
    if a.toNat < b.toNat then true
    else if b.toNat < a.toNat then false
    else charListLe as bs

/-- Go's `<=` on strings: byte-wise lexicographic. -/
def goStrLe (a b : String) : Bool :=
  charListLe a.data b.data

/-- Embedding of `sort.StringSlice.Sort` (core.go:431): lexicographic sort of the
field names under Go's string order. -/
def sortFields (ks : List String) : List String :=
  ks.mergeSort goStrLe

/-- One CSV data line (core.go:438-447): the record's values in sorted
field order, `""` for a missing key. -/
def csvLine (fields : List String) (r : Record) : List String :=
  fields.map (fun k =>
    match recordLookup r k with
    | some v => goFormat v
    | none => "")

/-- The lines `dumpCSV` hands to `csv.WriteAll` (core.go:423-451):
field names are read from `data[0]` — on an empty record list that
index is out of range (a Go panic), modelled as `none`. -/
def dumpCSVLines (data : List Record) (printFields : Bool) :
    Option (List (List String)) :=
  match data with
  | [] => none
  | r0 :: _ =>
    let fields := sortFields (recordKeys r0)
    let lines := data.map (csvLine fields)
    some (if printFields then fields :: lines else lines)

/-- Rendering of one CSV line by `csv.Writer` with the selected comma:
fields joined by that rune (quoting of special characters is outside
the claims and abstracted away). -/
def csvRenderLine (comma : Nat) (fields : List String) : String :=
  String.intercalate (String.mk [Char.ofNat comma]) fields

/-- JSON values, for the output `dumpJSON` encodes. -/
inductive Json where
  | null : Json
  | str (s : String) : Json
  | int (i : Int) : Json
  | num (f : GoFloat) : Json
  | bool (b : Bool) : Json
  | arr (xs : List Json) : Json
  | obj (kvs : List (String × Json)) : Json

def jsonOfValue : Value → Json
  | .null => .null
  | .str s => .str s
  | .int i => .int i
  | .float f => .num f
  | .bool b => .bool b

/-- Note `encoding/json` renders a Go map with its keys sorted. -/
def jsonOfRecord (r : Record) : Json :=
  .obj ((sortFields (recordKeys r)).map (fun k =>
    (k, match recordLookup r k with
        | some v => jsonOfValue v
        | none => .null)))

/-- The JSON document `dumpJSON` encodes (core.go:399-415): the record
list as an array.  Total: encoding these value shapes never fails, so
an empty result list serializes to `[]` without error. -/
def jsonOfRecords (data : List Record) : Json :=
  .arr (data.map jsonOfRecord)

/-- A file-system operation performed by the output writers. -/
inductive FsOp where
  | create (path : String)
  | write (path : String)
  | remove (path : String)
deriving DecidableEq, Repr

/-- Embedding of `dumpJSON` (core.go:392-418) as its file-operation trace and
returned error, with `os.Create` / write failures injected.  On a write
failure — in both the pretty (`MarshalIndent` + `Write`) and plain
(`Encoder.Encode`) branches — the output file is removed before the
error is returned. -/
def dumpJSONOps (createFails writeFails : Bool) (output : String) :
    List FsOp × Option String :=
  if createFails then ([], some "create error")
  else if writeFails then
    ([.create output, .write output, .remove output], some "write error")
  else ([.create output, .write output], none)

/-- Embedding of `dumpCSV`'s file operations (core.go:454-473): create, then
`WriteAll`, whose error is discarded; no removal happens on any path,
and a write failure is not even reported. -/
def dumpCSVOps (createFails _writeFails : Bool) (output : String) :
    List FsOp × Option String :=
  if createFails then ([], some "create error")
  else ([.create output, .write output], none)

/-! ### Helper lemmas -/

theorem charListLe_total (as bs : List Char) :
    (charListLe as bs || charListLe bs as) = true := by
  induction as generalizing bs with
  | nil => simp [charListLe]
  | cons a as ih =>
    cases bs with
    | nil => simp [charListLe]
    | cons b bs =>
      by_cases h1 : a.toNat < b.toNat
      · simp [charListLe, h1]
      · by_cases h2 : b.toNat < a.toNat
        · simp [charListLe, h1, h2]
        · simp [charListLe, h1, h2, ih bs]

theorem charListLe_trans (as : List Char) : ∀ bs cs : List Char,
    charListLe as bs = true → charListLe bs cs = true → charListLe as cs = true := by
  induction as with
  | nil => intro bs cs _ _; simp [charListLe]
  | cons a as ih =>
    intro bs cs h1 h2
    cases bs with
    | nil => simp [charListLe] at h1
    | cons b bs =>
      cases cs with
      | nil => simp [charListLe] at h2
      | cons c cs =>
        simp only [charListLe] at h1 h2 ⊢
        split_ifs at h1 h2 ⊢ <;>
          first
          | rfl
          | omega
          | (exact ih bs cs h1 h2)

theorem charListLe_antisymm (as : List Char) : ∀ bs : List Char,
    charListLe as bs = true → charListLe bs as = true → as = bs := by
  induction as with
  | nil =>
    intro bs h1 h2
    cases bs with
    | nil => rfl
    | cons b bs => simp [charListLe] at h2
  | cons a as ih =>
    intro bs h1 h2
    cases bs with
    | nil => simp [charListLe] at h1
    | cons b bs =>
      simp only [charListLe] at h1 h2
      split_ifs at h1 h2 <;> try omega
      have htn : a.toNat = b.toNat := by omega
      have hab : a = b := Char.eq_of_val_eq (UInt32.ext htn)
      rw [hab, ih bs h1 h2]

theorem goStrLe_trans (a b c : String) :
    goStrLe a b = true → goStrLe b c = true → goStrLe a c = true :=
  charListLe_trans a.data b.data c.data

theorem goStrLe_total (a b : String) : (goStrLe a b || goStrLe b a) = true :=
  charListLe_total a.data b.data

theorem goStrLe_antisymm (a b : String) :
    goStrLe a b = true → goStrLe b a = true → a = b := by
  intro h1 h2
  cases a with
  | mk da =>
    cases b with
    | mk db => exact congrArg String.mk (charListLe_antisymm da db h1 h2)

instance : IsAntisymm String (fun a b => goStrLe a b = true) :=
  ⟨goStrLe_antisymm⟩

theorem sortFields_sorted (ks : List String) :
    List.Sorted (fun a b => goStrLe a b = true) (sortFields ks) :=
  List.sorted_mergeSort (fun a b c => goStrLe_trans a b c) goStrLe_total ks

theorem sortFields_perm (ks : List String) : List.Perm (sortFields ks) ks :=
  List.mergeSort_perm ks goStrLe

theorem sortFields_congr_perm {ks ks' : List String} (h : List.Perm ks ks') :
    sortFields ks = sortFields ks' :=
  List.eq_of_perm_of_sorted
    ((sortFields_perm ks).trans (h.trans (sortFields_perm ks').symm))
    (sortFields_sorted ks) (sortFields_sorted ks')

theorem toRowsLoop_ok_length (names : List fieldType) :
    ∀ rows recs, toRowsLoop names rows = .ok recs → recs.length = rows.length := by
  intro rows
  induction rows with
  | nil =>
    intro recs h
    simp only [toRowsLoop] at h
    cases h
    rfl
  | cons row rest ih =>
    intro recs h
    simp only [toRowsLoop] at h
    cases hd : decodeRowAux [] names row with
    | error e => rw [hd] at h; cases h
    | ok r =>
      rw [hd] at h
      cases hl : toRowsLoop names rest with
      | error e => rw [hl] at h; cases h
      | ok rs =>
        rw [hl] at h
        cases h
        simp [ih rs hl]

theorem getAllRows_ok_length (fetch : String → Nat → QueryPage)
    (total : Nat) (fuel : Nat) :
    ∀ retrieved token rows out, retrieved = rows.length →
      getAllRows fetch total fuel retrieved token rows = some (.ok out) →
      out.length = total := by
  induction fuel with
  | zero =>
    intro retrieved token rows out hinv h
    simp only [getAllRows] at h
    split at h
    · cases h with
      | refl => omega
    · cases h
  | succ fuel ih =>
    intro retrieved token rows out hinv h
    simp only [getAllRows] at h
    split at h
    · cases h with
      | refl => omega
    · split at h
      · cases h
      · exact ih (retrieved + (fetch token retrieved).rows.length)
          (fetch token retrieved).pageToken
          (rows ++ (fetch token retrieved).rows) out (by simp [hinv]) h

theorem findDataset_iff (pages : List DatasetPage) (id : String)
    (hc : chainedPages pages) :
    findDataset pages id = true ↔ id ∈ allDatasets pages := by
  induction pages with
  | nil => simp [findDataset, allDatasets]
  | cons p ps ih =>
    simp only [chainedPages] at hc
    obtain ⟨hp, hrest⟩ := hc
    by_cases hmem : id ∈ p.datasets
    · simp [findDataset, hmem, allDatasets]
    · rcases hp with hnil | htok
      · subst hnil
        by_cases ht : p.nextToken = "" <;>
          simp [findDataset, hmem, ht, allDatasets]
      · simp [findDataset, hmem, htok, allDatasets, ih hrest]

/-! ### Claims -/

/-- C1, counterexample: the claim says a top-level RECORD field named
`"parent"` whose first nested field is `"child"` flattens to
`"parent.child"`.  The code instead passes the nested field's own name
as the prefix, producing `"child.child"`: the parent's name never
appears. -/
theorem c1_counterexample :
    walkFields "" (.mk "parent" "RECORD"
        [.mk "child" "STRING" [], .mk "other" "INTEGER" []])
      = ("child.child", "STRING")
    ∧ (walkFields "" (.mk "parent" "RECORD"
        [.mk "child" "STRING" [], .mk "other" "INTEGER" []])).1
      ≠ "parent.child" := by
  exact ⟨rfl, by decide⟩

/-- C1 (amended): for a top-level RECORD field, the walk descends into
the first nested field only, passing that field's own name (not the
RECORD's) as the prefix; when the first nested field is primitive with
a non-empty name, the flattened name is the nested field's name joined
by a dot to itself, the effective type is the type resolved from that
first nested field, and nested fields after the first are ignored. -/
theorem c1_record_flattening (n : String) (first : TableFieldSchema)
    (rest rest' : List TableFieldSchema) (hn : first.name ≠ "")
    (ht : first.type ≠ "RECORD") :
    walkFields "" (.mk n "RECORD" (first :: rest)) = walkFields first.name first
    ∧ walkFields "" (.mk n "RECORD" (first :: rest))
        = (first.name ++ "." ++ first.name, first.type)
    ∧ walkFields "" (.mk n "RECORD" (first :: rest'))
        = walkFields "" (.mk n "RECORD" (first :: rest)) := by
  obtain ⟨fn, ftv, ffs⟩ := first
  simp only [TableFieldSchema.name, TableFieldSchema.type] at hn ht ⊢
  refine ⟨?_, ?_, ?_⟩ <;>
    simp [walkFields.eq_def, TableFieldSchema.name, TableFieldSchema.type, hn, ht]

/-- C1 witness: the amended flattening rule applied to a concrete
RECORD schema. -/
theorem c1_record_flattening_witness :
    walkFields "" (.mk "parent" "RECORD" [.mk "child" "STRING" []])
      = ("child.child", "STRING") :=
  (c1_record_flattening "parent" (.mk "child" "STRING" []) [] []
    (by decide) (by decide)).2.1

/-- C2: whenever the pagination loop of `Dump` terminates successfully,
the accumulated row list has exactly the total-rows count reported by
the initial query response; `toRows` preserves the row count, so the
record list handed to the writer has that many entries; and when the
first response already carries all rows, the output is exactly those
rows (no page is consumed). -/
theorem c2_dump_pagination_total (fetch : String → Nat → QueryPage)
    (total fuel : Nat) (token : String)
    (rows0 out : List (List (Option String)))
    (fields : List TableFieldSchema) (recs : List Record)
    (h : getAllRows fetch total fuel rows0.length token rows0
        = some (.ok out)) :
    out.length = total
    ∧ (toRows fields out = .ok recs → recs.length = out.length)
    ∧ (rows0.length = total → out = rows0) := by
  refine ⟨getAllRows_ok_length fetch total fuel rows0.length token rows0 out
    rfl h, ?_, ?_⟩
  · intro ht
    exact toRowsLoop_ok_length (toRowsNames fields) out recs ht
  · intro heq
    cases fuel <;> simp [getAllRows, heq] at h <;> exact h.symm

/-- C2 witness: a partial first response of one row with total 2 is
completed by one page request, and the decoded record list has two
entries. -/
theorem c2_dump_pagination_total_witness :
    ([[some "a"], [some "b"]] : List (List (Option String))).length = 2
    ∧ ([[("f", Value.str "a")], [("f", Value.str "b")]] : List Record).length
        = ([[some "a"], [some "b"]] : List (List (Option String))).length := by
  have h := c2_dump_pagination_total (fun _ _ => ⟨0, [[some "b"]], ""⟩)
    2 1 "tok" [[some "a"]] [[some "a"], [some "b"]] [.mk "f" "STRING" []]
    [[("f", Value.str "a")], [("f", Value.str "b")]] (by rfl)
  exact ⟨h.1, h.2.1 (by rfl)⟩

/-- C3: cell decoding in `toRows`: a null cell decodes to a null value
regardless of the declared type; STRING passes through; INTEGER and
TIMESTAMP parse as base-10 64-bit integers; FLOAT parses as a 64-bit
float; BOOLEAN parses as a boolean; each parse failure is a decoding
error naming the field and the raw value; any other declared type is an
unsupported-type error naming the field and the type. -/
theorem c3_cell_decoding (ft : fieldType) (s : String) :
    decodeCell ft none = .ok .null
    ∧ (ft.ftype = "STRING" → decodeCell ft (some s) = .ok (.str s))
    ∧ (ft.ftype = "INTEGER" ∨ ft.ftype = "TIMESTAMP" →
        (∀ i, goParseInt64 s = some i → decodeCell ft (some s) = .ok (.int i))
        ∧ (goParseInt64 s = none →
            decodeCell ft (some s) = .error (invalidMsg ft.name s)))
    ∧ (ft.ftype = "FLOAT" →
        (∀ f, goParseFloat s = some f → decodeCell ft (some s) = .ok (.float f))
        ∧ (goParseFloat s = none →
            decodeCell ft (some s) = .error (invalidMsg ft.name s)))
    ∧ (ft.ftype = "BOOLEAN" →
        (∀ b, goParseBool s = some b → decodeCell ft (some s) = .ok (.bool b))
        ∧ (goParseBool s = none →
            decodeCell ft (some s) = .error (invalidMsg ft.name s)))
    ∧ (ft.ftype ∉ (["STRING", "INTEGER", "TIMESTAMP", "FLOAT", "BOOLEAN"] : List String) →
        decodeCell ft (some s) = .error (unsupportedMsg ft.ftype ft.name)) := by
  refine ⟨rfl, ?_, ?_, ?_, ?_, ?_⟩
  · intro h
    simp [decodeCell, h]
  · intro h
    constructor
    · intro i hi
      rcases h with h | h <;> simp [decodeCell, h, hi]
    · intro hn
      rcases h with h | h <;> simp [decodeCell, h, hn]
  · intro h
    constructor
    · intro f hf
      simp [decodeCell, h, hf]
    · intro hn
      simp [decodeCell, h, hn]
  · intro h
    constructor
    · intro b hb
      simp [decodeCell, h, hb]
    · intro hn
      simp [decodeCell, h, hn]
  · intro h
    simp only [List.mem_cons, List.not_mem_nil, or_false, not_or] at h
    obtain ⟨h1, h2, h3, h4, h5⟩ := h
    simp [decodeCell, h1, h2, h3, h4, h5]

/-- C3 witness: concrete decodings — null stays null under INTEGER, a
STRING passes through, a valid and an invalid INTEGER, an invalid
FLOAT, a valid BOOLEAN, and an unsupported RECORD type. -/
theorem c3_cell_decoding_witness :
    decodeCell ⟨"n", "INTEGER"⟩ none = .ok .null
    ∧ decodeCell ⟨"s", "STRING"⟩ (some "hi") = .ok (.str "hi")
    ∧ decodeCell ⟨"i", "INTEGER"⟩ (some "42") = .ok (.int 42)
    ∧ decodeCell ⟨"i", "INTEGER"⟩ (some "4x")
        = .error (invalidMsg "i" "4x")
    ∧ decodeCell ⟨"f", "FLOAT"⟩ (some "no")
        = .error (invalidMsg "f" "no")
    ∧ decodeCell ⟨"b", "BOOLEAN"⟩ (some "true") = .ok (.bool true)
    ∧ decodeCell ⟨"r", "RECORD"⟩ (some "v")
        = .error (unsupportedMsg "RECORD" "r") := by
  refine ⟨(c3_cell_decoding ⟨"n", "INTEGER"⟩ "").1,
    (c3_cell_decoding ⟨"s", "STRING"⟩ "hi").2.1 rfl,
    ((c3_cell_decoding ⟨"i", "INTEGER"⟩ "42").2.2.1 (Or.inl rfl)).1 42 (by rfl),
    ((c3_cell_decoding ⟨"i", "INTEGER"⟩ "4x").2.2.1 (Or.inl rfl)).2 (by rfl),
    ((c3_cell_decoding ⟨"f", "FLOAT"⟩ "no").2.2.2.1 rfl).2 (by rfl),
    ((c3_cell_decoding ⟨"b", "BOOLEAN"⟩ "true").2.2.2.2.1 rfl).1 true (by rfl),
    (c3_cell_decoding ⟨"r", "RECORD"⟩ "v").2.2.2.2.2 (by decide)⟩

/-- C4, counterexample: the claim says state DONE returns success for
every observed response, but `jobDone` checks the job-level error list
first — a DONE response carrying one error returns an error, not
success. -/
theorem c4_counterexample :
    jobDone ⟨["boom"], "DONE"⟩ ≠ .ok true
    ∧ jobDone ⟨["boom"], "DONE"⟩ = .error "1 errors returned" := by
  refine ⟨?_, rfl⟩
  intro h
  simp [jobDone] at h

/-- C4 (amended): for every observed job-status response, a non-empty
job-level error list returns an error regardless of state (the error
check precedes the state switch); with an empty error list, PENDING and
RUNNING keep polling, DONE returns success, and any other state string
is an unknown-status error; the poll ticker period is the fixed
constant 3 seconds, and the loop has no timeout or cancellation: over
any finite sequence of non-terminal responses it is still polling. -/
theorem c4_job_status_polling (st : JobStatus) :
    (st.errs ≠ [] →
      jobDone st = .error (toString st.errs.length ++ " errors returned"))
    ∧ (st.errs = [] → (st.state = "PENDING" ∨ st.state = "RUNNING") →
        jobDone st = .ok false)
    ∧ (st.errs = [] → st.state = "DONE" → jobDone st = .ok true)
    ∧ (st.errs = [] → st.state ≠ "PENDING" → st.state ≠ "RUNNING" →
        st.state ≠ "DONE" →
        jobDone st = .error ("Unknown job status returned - " ++ st.state))
    ∧ pollIntervalSeconds = 3
    ∧ (∀ sts : List JobStatus, (∀ s ∈ sts, jobDone s = .ok false) →
        pollLoop sts = none) := by
  refine ⟨?_, ?_, ?_, ?_, rfl, ?_⟩
  · intro h
    have hl : st.errs.length ≠ 0 := by
      intro h0
      exact h (List.length_eq_zero.mp h0)
    simp [jobDone, hl]
  · intro he hs
    rcases hs with hs | hs <;> simp [jobDone, he, hs]
  · intro he hs
    simp [jobDone, he, hs]
  · intro he h1 h2 h3
    simp [jobDone, he, h1, h2, h3]
  · intro sts h
    induction sts with
    | nil => rfl
    | cons s rest ih =>
      have hs := h s (by simp)
      simp only [pollLoop, hs]
      exact ih (fun x hx => h x (by simp [hx]))

/-- C4 witness: DONE with no errors succeeds, RUNNING keeps polling,
and a sequence of PENDING/RUNNING responses leaves the loop blocked. -/
theorem c4_job_status_polling_witness :
    jobDone ⟨[], "DONE"⟩ = .ok true
    ∧ jobDone ⟨[], "RUNNING"⟩ = .ok false
    ∧ pollLoop [⟨[], "PENDING"⟩, ⟨[], "RUNNING"⟩] = none := by
  refine ⟨(c4_job_status_polling ⟨[], "DONE"⟩).2.2.1 rfl rfl,
    (c4_job_status_polling ⟨[], "RUNNING"⟩).2.1 rfl (Or.inr rfl),
    (c4_job_status_polling ⟨[], "PENDING"⟩).2.2.2.2.2
      [⟨[], "PENDING"⟩, ⟨[], "RUNNING"⟩]
      (by
        intro s hs
        simp only [List.mem_cons, List.not_mem_nil, or_false] at hs
        rcases hs with rfl | rfl <;> rfl)⟩

/-- C5: with CSV format, the delimiter string `"tab"` selects a literal
tab character as the field separator, and the empty delimiter defaults
to a comma (Dump rewrites `""` to `","`, whose first byte is the
writer's comma anyway). -/
theorem c5_csv_delimiter_alias :
    csvComma (dumpDelimDefault (goBytes "tab")) = Char.toNat '\t'
    ∧ csvComma (dumpDelimDefault (goBytes "")) = Char.toNat ','
    ∧ csvRenderLine (csvComma (dumpDelimDefault (goBytes "tab"))) ["a", "b"]
        = "a\tb"
    ∧ csvRenderLine (csvComma (dumpDelimDefault (goBytes ""))) ["a", "b"]
        = "a,b" :=
  ⟨rfl, rfl, rfl, rfl⟩

/-- C6: the CSV field order is lexicographic: the header row is the
sorted key list of the first record, every data row lists its cells in
that same sorted field order, and the sorted order is independent of
the order in which keys were inserted into the record. -/
theorem c6_csv_lexicographic_order (r0 : Record) (rest : List Record) :
    List.Sorted (fun a b => goStrLe a b = true) (sortFields (recordKeys r0))
    ∧ dumpCSVLines (r0 :: rest) true
        = some (sortFields (recordKeys r0)
            :: (r0 :: rest).map (csvLine (sortFields (recordKeys r0))))
    ∧ dumpCSVLines (r0 :: rest) false
        = some ((r0 :: rest).map (csvLine (sortFields (recordKeys r0))))
    ∧ (∀ r0' : Record, List.Perm (recordKeys r0') (recordKeys r0) →
        sortFields (recordKeys r0') = sortFields (recordKeys r0)) := by
  refine ⟨sortFields_sorted _, rfl, rfl, ?_⟩
  intro r0' hp
  exact sortFields_congr_perm hp

unseal List.merge List.mergeSort in
/-- C6 witness: two records holding the same keys in opposite insertion
orders sort to the same field list, and a concrete dump is emitted in
sorted order. -/
theorem c6_csv_lexicographic_order_witness :
    sortFields (recordKeys [("a", Value.str "x"), ("b", Value.int 1)])
      = sortFields (recordKeys [("b", Value.int 1), ("a", Value.str "x")])
    ∧ dumpCSVLines [[("b", Value.int 1), ("a", Value.str "x")]] true
      = some [["a", "b"], ["x", "1"]] := by
  refine ⟨(c6_csv_lexicographic_order
      [("b", Value.int 1), ("a", Value.str "x")] []).2.2.2
      [("a", Value.str "x"), ("b", Value.int 1)] (by decide), ?_⟩
  rfl

/-- C7: a failed JSON write removes the partially written output file
(the removal is the last file operation before the error is returned),
while the CSV path never removes the output file on any path; a
successful JSON write removes nothing. -/
theorem c7_json_cleanup_asymmetry (out : String) :
    (dumpJSONOps false true out).2 = some "write error"
    ∧ (dumpJSONOps false true out).1.getLast? = some (.remove out)
    ∧ (∀ createFails writeFails : Bool,
        FsOp.remove out ∉ (dumpCSVOps createFails writeFails out).1)
    ∧ (dumpJSONOps false false out).1 = [.create out, .write out] := by
  refine ⟨rfl, rfl, ?_, rfl⟩
  intro cf wf
  cases cf <;> simp [dumpCSVOps]

/-- C7 witness: at a concrete output path, the failed JSON write's
trace ends in a removal and the failed CSV write's trace holds no
removal. -/
theorem c7_json_cleanup_asymmetry_witness :
    (dumpJSONOps false true "out.json").1.getLast?
      = some (.remove "out.json")
    ∧ FsOp.remove "out.csv" ∉ (dumpCSVOps false true "out.csv").1 :=
  ⟨(c7_json_cleanup_asymmetry "out.json").2.1,
    (c7_json_cleanup_asymmetry "out.csv").2.2.1 false true⟩

/-- C8: the dataset-ensure operation is idempotent: when the dataset id
appears anywhere in the (token-chained) listing no creation call is
made; the creation call is issued exactly when the id is absent from
every page; and across two consecutive calls — where a creation by the
first call puts the id into the listing the second call sees — at most
one creation call is issued. -/
theorem c8_dataset_ensure_idempotent (pages : List DatasetPage) (id : String)
    (hc : chainedPages pages) :
    (id ∈ allDatasets pages → datasetCreateIfNotExists pages id = false)
    ∧ (datasetCreateIfNotExists pages id = true ↔ id ∉ allDatasets pages)
    ∧ (∀ pages2 : List DatasetPage, chainedPages pages2 →
        (datasetCreateIfNotExists pages id = true → id ∈ allDatasets pages2) →
        (cond (datasetCreateIfNotExists pages id) 1 0)
          + (cond (datasetCreateIfNotExists pages2 id) 1 0) ≤ 1) := by
  have hiff := findDataset_iff pages id hc
  refine ⟨?_, ?_, ?_⟩
  · intro hmem
    simp [datasetCreateIfNotExists, hiff.mpr hmem]
  · constructor
    · intro hcr hmem
      have hfd := hiff.mpr hmem
      simp [datasetCreateIfNotExists, hfd] at hcr
    · intro hmem
      have hfd : findDataset pages id = false := by
        cases hfd : findDataset pages id
        · rfl
        · exact absurd (hiff.mp hfd) hmem
      simp [datasetCreateIfNotExists, hfd]
  · intro pages2 hc2 himp
    by_cases hcr : datasetCreateIfNotExists pages id = true
    · have hmem2 := himp hcr
      have hiff2 := findDataset_iff pages2 id hc2
      have h2 : datasetCreateIfNotExists pages2 id = false := by
        simp [datasetCreateIfNotExists, hiff2.mpr hmem2]
      simp [hcr, h2]
    · have h1 : datasetCreateIfNotExists pages id = false := by
        cases h : datasetCreateIfNotExists pages id
        · rfl
        · exact absurd h hcr
      simp only [h1, cond_false, Nat.zero_add]
      cases datasetCreateIfNotExists pages2 id <;> simp

/-- C8 witness: a listing already holding the dataset id triggers no
creation, and an ensure on an empty listing followed by an ensure on
the listing holding the created id issues exactly one creation. -/
theorem c8_dataset_ensure_idempotent_witness :
    datasetCreateIfNotExists [⟨["ds1"], ""⟩] "ds1" = false
    ∧ (cond (datasetCreateIfNotExists [⟨[], ""⟩] "ds1") 1 0)
        + (cond (datasetCreateIfNotExists [⟨["ds1"], ""⟩] "ds1") 1 0) ≤ 1 := by
  have hc1 : chainedPages [⟨["ds1"], ""⟩] := by simp [chainedPages]
  have hc0 : chainedPages [⟨([] : List String), ""⟩] := by simp [chainedPages]
  exact ⟨(c8_dataset_ensure_idempotent [⟨["ds1"], ""⟩] "ds1" hc1).1 (by decide),
    (c8_dataset_ensure_idempotent [⟨[], ""⟩] "ds1" hc0).2.2
      [⟨["ds1"], ""⟩] hc1 (fun _ => by decide)⟩

/-- C9: an empty query result reaches the CSV writer as an empty record
list — the pagination loop returns no rows when total is zero and
`toRows` maps them to no records — and there `dumpCSV` indexes
`data[0]` without a length check, an out-of-bounds access (modelled as
`none`), while the JSON path serializes the empty list to `[]` without
error. -/
theorem c9_empty_result_csv_panic (fetch : String → Nat → QueryPage)
    (fuel : Nat) (token : String)
    (fields : List TableFieldSchema) (printFields : Bool) :
    getAllRows fetch 0 fuel 0 token [] = some (.ok [])
    ∧ toRows fields [] = .ok []
    ∧ dumpCSVLines [] printFields = none
    ∧ jsonOfRecords [] = .arr [] := by
  refine ⟨?_, rfl, rfl, rfl⟩
  cases fuel <;> simp [getAllRows]

/-- C9 witness: the empty-result pipeline at concrete arguments — the
CSV line builder hits the out-of-bounds marker while the JSON encoding
is the empty array. -/
theorem c9_empty_result_csv_panic_witness :
    getAllRows (fun _ _ => ⟨0, [], ""⟩) 0 0 0 "" [] = some (.ok [])
    ∧ dumpCSVLines [] true = none
    ∧ jsonOfRecords [] = .arr [] :=
  ⟨(c9_empty_result_csv_panic (fun _ _ => ⟨0, [], ""⟩) 0 "" [] true).1,
    (c9_empty_result_csv_panic (fun _ _ => ⟨0, [], ""⟩) 0 "" [] true).2.2.1,
    (c9_empty_result_csv_panic (fun _ _ => ⟨0, [], ""⟩) 0 "" [] true).2.2.2⟩

/-- C10: a CSV delimiter longer than one byte that is not the alias
`"tab"` contributes only its first byte as the separator: the selected
comma is the head byte, and any other delimiter sharing that first byte
selects the same separator (the remaining bytes are discarded). -/
theorem c10_multichar_delimiter_first_byte (d : List Nat) (h1 : 1 < d.length)
    (h2 : d ≠ tabBytes) :
    csvComma d = d.headD 0
    ∧ (∀ d' : List Nat, d' ≠ [] → d'.head? = d.head? → d' ≠ tabBytes →
        csvComma d' = csvComma d) := by
  cases d with
  | nil => simp at h1
  | cons b rest =>
    refine ⟨by simp [csvComma, h2], ?_⟩
    intro d' hne hh ht
    cases d' with
    | nil => exact absurd rfl hne
    | cons b' rest' =>
      simp only [List.head?, Option.some.injEq] at hh
      subst hh
      simp [csvComma, h2, ht]

/-- C10 witness: the two-byte delimiter `";;"` selects the semicolon
byte, and `";x"` selects the same separator. -/
theorem c10_multichar_delimiter_first_byte_witness :
    csvComma (goBytes ";;") = 59
    ∧ csvComma (goBytes ";x") = csvComma (goBytes ";;") := by
  have h := c10_multichar_delimiter_first_byte (goBytes ";;")
    (by decide) (by decide)
  exact ⟨h.1.trans rfl, h.2 (goBytes ";x") (by decide) (by decide) (by decide)⟩

end Bqwrapper
